import Mathlib

/-!
Shallow embedding of the staff-allotment core from `desktop_app.py`:
the `ConfigurationManager` (configuration store), the requirement
aggregator `calculate_staff_requirements`, and the allocation engine
`allocate_staff`.  File-system effects (reading the exclusion store,
writing the classes file) are modelled by explicit parameters that record
the outcome of the I/O; the in-place `random.shuffle` is modelled by an
arbitrary permutation parameter.
-/

namespace StaffAllotment

/-- A staff record as the Python code consumes it: a dict with keys
`staff_name`, `staff_dept`, `staff_gender` (gender a free-form string,
tested with `.upper() in ['F', 'FEMALE']`). -/
structure Staff where
  staff_name : String
  staff_dept : String
  staff_gender : String
deriving DecidableEq, Repr

/-- A room requirement record: dict with keys `room_no`, `girls_only`,
`single_staff` (from the per-date configuration). -/
structure RoomReq where
  room_no : String
  girls_only : Bool
  single_staff : Bool
deriving DecidableEq, Repr

/-- One entry of the allocation output: `{'room_no': ..., 'staff': [...]}`. -/
structure Assignment where
  room_no : String
  staff : List Staff
deriving DecidableEq, Repr

/-- Python `str.upper()`: uppercase every character. -/
def pyUpper (s : String) : String :=
  ⟨s.data.map Char.toUpper⟩

/-- Python `str.strip()`: drop whitespace from both ends. -/
def pyStrip (s : String) : String :=
  ⟨((s.data.dropWhile Char.isWhitespace).reverse.dropWhile
      Char.isWhitespace).reverse⟩

/-- `s.get('staff_gender', '').upper() in ['F', 'FEMALE']` from
`allocate_staff` (line 2230). -/
def isFemale (s : Staff) : Bool :=
  pyUpper s.staff_gender == "F" || pyUpper s.staff_gender == "FEMALE"

/-- Eligible staff for one room (lines 2228-2232): the female members of
the current pool when `girls_only`, otherwise a copy of the whole pool. -/
def eligibleOf (pool : List Staff) (r : RoomReq) : List Staff :=
  if r.girls_only then pool.filter isFemale else pool

/-- `staff_needed = 1 if single_staff else 2` (line 2235). -/
def staff_needed (r : RoomReq) : Nat :=
  if r.single_staff then 1 else 2

/-- The selection loop of lines 2238-2242: while fewer than `n` staff are
selected and eligible staff remain, pop the front of the eligible list,
append it to the selection, and remove it (first occurrence, by value
equality, as Python `list.remove` does) from the shared pool. Returns
(selected staff, remaining pool). -/
def selectLoop : List Staff → List Staff → Nat → List Staff × List Staff
  | _, pool, 0 => ([], pool)
  | [], pool, _ + 1 => ([], pool)
  | s :: es, pool, n + 1 =>
    let rest := selectLoop es (pool.erase s) n
    (s :: rest.1, rest.2)

/-- Processing of one room (lines 2227-2242): compute the eligible subset
of the current pool and run the selection loop for `staff_needed` staff. -/
def allocRoom (pool : List Staff) (r : RoomReq) : List Staff × List Staff :=
  selectLoop (eligibleOf pool r) pool (staff_needed r)

/-- The per-room loop of `allocate_staff` (lines 2222-2251): rooms are
processed in list order against the shared pool; an assignment is appended
only when `selected_staff` is non-empty (line 2245 `if selected_staff:`). -/
def allocate_rooms : List Staff → List RoomReq → List Assignment
  | _, [] => []
  | pool, r :: rs =>
    let p := allocRoom pool r
    if p.1.isEmpty then allocate_rooms p.2 rs
    else ⟨r.room_no, p.1⟩ :: allocate_rooms p.2 rs

/-- Outcome of reading `data/excluded_staff.json` in `allocate_staff`
(lines 2207-2210): the file may be absent (`os.path.exists` false, no
filtering happens), present and successfully parsed into a list of names,
or present but failing to read/parse (the exception reaches the `except`
block at lines 2253-2256, which logs and re-raises). -/
inductive ExclusionRead where
  | missing
  | loaded (names : List String)
  | failed
deriving DecidableEq, Repr

/-- Line 2213: `staff_list = [s for s in staff_list if
s['staff_name'].strip() not in excluded_staff]`. -/
def filterExcluded (staff_list : List Staff) (excluded_staff : List String) :
    List Staff :=
  staff_list.filter
    (fun s => !(excluded_staff.contains (pyStrip s.staff_name)))

/-- `allocate_staff` (lines 2197-2256).  `π` models the in-place
`random.shuffle` at line 2216 (meaningful only when it permutes its
argument); the `ExclusionRead` parameter models the outcome of the
exclusion-file read.  A failed read escapes the `try` block and is
re-raised by the `except` handler, modelled as `Except.error`. -/
def allocate_staff (π : List Staff → List Staff) (staff_list : List Staff)
    (classes_list : List RoomReq) (excl : ExclusionRead) :
    Except Unit (List Assignment) :=
  match excl with
  | .failed => .error ()
  | .missing => .ok (allocate_rooms (π staff_list) classes_list)
  | .loaded names =>
      .ok (allocate_rooms (π (filterExcluded staff_list names)) classes_list)

/-- Pool remaining after a prefix of rooms has been processed. -/
def poolAfter (pool : List Staff) (reqs : List RoomReq) : List Staff :=
  reqs.foldl (fun p r => (allocRoom p r).2) pool

/-- Accumulator loop of `calculate_staff_requirements` (lines 2174-2187):
each room adds 1 (single staff) or 2 to the running total, and the same to
the running female total when it is girls-only. -/
def calcLoop : List RoomReq → Nat → Nat → Nat × Nat
  | [], total_required, female_required => (total_required, female_required)
  | r :: rs, total_required, female_required =>
    if r.single_staff then
      calcLoop rs (total_required + 1)
        (if r.girls_only then female_required + 1 else female_required)
    else
      calcLoop rs (total_required + 2)
        (if r.girls_only then female_required + 2 else female_required)

/-- `calculate_staff_requirements` (lines 2165-2195) over the list of room
requirements read from the room frames; returns
`(total_required, female_required, male_possible)` with
`male_possible = total_required - female_required` (line 2190). -/
def calculate_staff_requirements (rooms : List RoomReq) : Nat × Nat × Nat :=
  let p := calcLoop rooms 0 0
  (p.1, p.2, p.1 - p.2)

/-- The four string settings of a date configuration, all defaulting to
the empty string (lines 69-74). -/
structure Settings where
  reporting_time : String
  assessment_name : String
  exam_time : String
  exam_details : String
deriving DecidableEq, Repr

/-- One date's configuration: room requirement list plus settings. -/
structure DateConfig where
  rooms : List RoomReq
  settings : Settings
deriving DecidableEq, Repr

/-- The fresh default returned by `get_date_config` for an unknown date
(lines 67-75). -/
def default_config : DateConfig :=
  ⟨[], ⟨"", "", "", ""⟩⟩

/-- In-memory state of `ConfigurationManager`: `self.configurations`, a
dict keyed by date string, modelled as an association list with at most
one binding per key. -/
structure ConfigurationManager where
  configurations : List (String × DateConfig)
deriving DecidableEq, Repr

/-- Contents of the durable backing store `data/classes.json`. -/
structure ClassesFile where
  contents : List (String × DateConfig)
deriving DecidableEq, Repr

/-- `save_configurations` (lines 51-63): writes the in-memory map to the
classes file and returns `True`; on an I/O exception it logs and returns
`False`, leaving the file as it was.  `writeOk` records whether the
`json.dump` succeeded. -/
def save_configurations (m : ConfigurationManager) (fs : ClassesFile)
    (writeOk : Bool) : ClassesFile × Bool :=
  if writeOk then (⟨m.configurations⟩, true) else (fs, false)

/-- `get_date_config` (lines 65-75): `self.configurations.get(date,
<fresh default>)`. -/
def get_date_config (m : ConfigurationManager) (date : String) : DateConfig :=
  match m.configurations.lookup date with
  | some c => c
  | none => default_config

/-- Python dict update `self.configurations[date] = config`: replace any
existing binding for `date`. -/
def dictInsert (l : List (String × DateConfig)) (date : String)
    (cfg : DateConfig) : List (String × DateConfig) :=
  (date, cfg) :: l.filter (fun p => p.1 != date)

/-- `set_date_config` (lines 77-80): update the in-memory map, then save;
the saved file and the boolean result of `save_configurations` are
returned alongside the new in-memory state. -/
def set_date_config (m : ConfigurationManager) (fs : ClassesFile)
    (writeOk : Bool) (date : String) (config : DateConfig) :
    ConfigurationManager × ClassesFile × Bool :=
  let m' : ConfigurationManager := ⟨dictInsert m.configurations date config⟩
  let p := save_configurations m' fs writeOk
  (m', p.1, p.2)

/-- `clear_configurations` (lines 86-89): reset the in-memory map to empty
and save; the boolean result of `save_configurations` is discarded and the
method returns nothing, so a failed persist is silent. -/
def clear_configurations (m : ConfigurationManager) (fs : ClassesFile)
    (writeOk : Bool) : ConfigurationManager × ClassesFile :=
  let m' : ConfigurationManager := ⟨[]⟩
  let p := save_configurations m' fs writeOk
  (m', p.1)

/-! ### Concrete records used by scenario conjuncts and witnesses -/

/-- Sample female staff record used in the spec's scenarios. -/
def staffA : Staff := ⟨"A", "CSE", "F"⟩

/-- Sample male staff record used in the spec's scenarios. -/
def staffB : Staff := ⟨"B", "ECE", "M"⟩

/-- Second sample female staff record used in the spec's scenarios. -/
def staffC : Staff := ⟨"C", "ECE", "F"⟩

/-! ### Helper lemmas about the allocation loop -/

lemma selectLoop_eq : ∀ (n : Nat) (el pool : List Staff),
    selectLoop el pool n = (el.take n, List.foldl List.erase pool (el.take n)) := by
  intro n
  induction n with
  | zero => intro el pool; cases el <;> simp [selectLoop]
  | succ n ih =>
      intro el pool
      cases el with
      | nil => simp [selectLoop]
      | cons s es => simp [selectLoop, ih]

lemma allocRoom_eq (pool : List Staff) (r : RoomReq) :
    allocRoom pool r =
      ((eligibleOf pool r).take (staff_needed r),
        pool.diff ((eligibleOf pool r).take (staff_needed r))) := by
  rw [allocRoom, selectLoop_eq, ← List.diff_eq_foldl]

lemma eligibleOf_sublist (pool : List Staff) (r : RoomReq) :
    List.Sublist (eligibleOf pool r) pool := by
  unfold eligibleOf
  split
  · exact List.filter_sublist pool
  · exact List.Sublist.refl pool

lemma allocRoom_sel_sublist (pool : List Staff) (r : RoomReq) :
    List.Sublist (allocRoom pool r).1 pool := by
  rw [allocRoom_eq]
  exact ((eligibleOf pool r).take_sublist _).trans (eligibleOf_sublist pool r)

lemma allocate_rooms_cons (pool : List Staff) (r : RoomReq) (rs : List RoomReq) :
    allocate_rooms pool (r :: rs) =
      (if (allocRoom pool r).1.isEmpty then ([] : List Assignment)
        else [⟨r.room_no, (allocRoom pool r).1⟩])
      ++ allocate_rooms (allocRoom pool r).2 rs := by
  by_cases h : (allocRoom pool r).1.isEmpty <;> simp [allocate_rooms, h]

lemma poolAfter_nil (pool : List Staff) : poolAfter pool [] = pool := rfl

lemma poolAfter_cons (pool : List Staff) (r : RoomReq) (rs : List RoomReq) :
    poolAfter pool (r :: rs) = poolAfter (allocRoom pool r).2 rs := rfl

lemma allocate_rooms_append : ∀ (xs ys : List RoomReq) (pool : List Staff),
    allocate_rooms pool (xs ++ ys) =
      allocate_rooms pool xs ++ allocate_rooms (poolAfter pool xs) ys := by
  intro xs
  induction xs with
  | nil => intro ys pool; simp [allocate_rooms, poolAfter_nil]
  | cons r rs ih =>
      intro ys pool
      rw [List.cons_append, allocate_rooms_cons, allocate_rooms_cons, ih,
        poolAfter_cons, List.append_assoc]

lemma mem_allocate_rooms_pool : ∀ (reqs : List RoomReq) (pool : List Staff)
    (a : Assignment), a ∈ allocate_rooms pool reqs → ∀ s ∈ a.staff, s ∈ pool := by
  intro reqs
  induction reqs with
  | nil => intro pool a ha; simp [allocate_rooms] at ha
  | cons r rs ih =>
      intro pool a ha s hs
      rw [allocate_rooms_cons] at ha
      rcases List.mem_append.1 ha with h1 | h2
      · have : a = ⟨r.room_no, (allocRoom pool r).1⟩ := by
          by_cases he : (allocRoom pool r).1.isEmpty <;> simp [he] at h1
          · exact h1
        subst this
        exact (allocRoom_sel_sublist pool r).subset hs
      · have := ih (allocRoom pool r).2 a h2 s hs
        rw [allocRoom_eq] at this
        exact List.diff_subset _ _ this

lemma allocate_rooms_staff_nonempty : ∀ (reqs : List RoomReq) (pool : List Staff),
    ((allocate_rooms pool reqs).all (fun a => !a.staff.isEmpty)) = true := by
  intro reqs
  induction reqs with
  | nil => intro pool; simp [allocate_rooms]
  | cons r rs ih =>
      intro pool
      rw [allocate_rooms_cons]
      by_cases he : (allocRoom pool r).1.isEmpty <;>
        simp [he, ih (allocRoom pool r).2]

lemma calcLoop_eq : ∀ (rooms : List RoomReq) (t f : Nat),
    calcLoop rooms t f =
      (t + (rooms.map staff_needed).sum,
        f + ((rooms.filter (fun r => r.girls_only)).map staff_needed).sum) := by
  intro rooms
  induction rooms with
  | nil => intro t f; simp [calcLoop]
  | cons r rs ih =>
      intro t f
      by_cases hs : r.single_staff <;> by_cases hg : r.girls_only <;>
        simp [calcLoop, hs, hg, ih, staff_needed] <;> omega

lemma female_le_total (rooms : List RoomReq) :
    ((rooms.filter (fun r => r.girls_only)).map staff_needed).sum ≤
      (rooms.map staff_needed).sum := by
  induction rooms with
  | nil => simp
  | cons r rs ih =>
      by_cases hg : r.girls_only <;> simp [hg] <;> omega

lemma lookup_filter_ne (d date : String) (h : d ≠ date) :
    ∀ (l : List (String × DateConfig)),
      List.lookup d (l.filter (fun p => p.1 != date)) = List.lookup d l := by
  have hdd : (d == date) = false := beq_false_of_ne h
  intro l
  induction l with
  | nil => rfl
  | cons p tl ih =>
      obtain ⟨k, v⟩ := p
      by_cases hp : k = date
      · subst hp
        simp [List.lookup, hdd, ih]
      · by_cases hdk : d = k
        · subst hdk
          simp [List.lookup, bne, beq_false_of_ne hp]
        · simpa [List.lookup, bne, beq_false_of_ne hp, beq_false_of_ne hdk]
            using ih

lemma allocate_rooms_nodup : ∀ (reqs : List RoomReq) (pool : List Staff),
    pool.Nodup → ((allocate_rooms pool reqs).flatMap (fun a => a.staff)).Nodup := by
  intro reqs
  induction reqs with
  | nil => intro pool _; simp [allocate_rooms]
  | cons r rs ih =>
      intro pool h
      rw [allocate_rooms_cons]
      have hsel := allocRoom_sel_sublist pool r
      have hselnd : (allocRoom pool r).1.Nodup := h.sublist hsel
      have hpool2 : (allocRoom pool r).2 = pool.diff (allocRoom pool r).1 := by
        simp [allocRoom_eq]
      have hnd2 : (allocRoom pool r).2.Nodup := by
        rw [hpool2]; exact h.diff
      have hrest := ih (allocRoom pool r).2 hnd2
      by_cases he : (allocRoom pool r).1.isEmpty
      · simpa [he] using hrest
      · have hdisj : List.Disjoint (allocRoom pool r).1
            ((allocate_rooms (allocRoom pool r).2 rs).flatMap (fun a => a.staff)) := by
          intro x hx hx2
          rcases List.mem_flatMap.1 hx2 with ⟨a, ha, hxa⟩
          have hxp := mem_allocate_rooms_pool rs (allocRoom pool r).2 a ha x hxa
          rw [hpool2] at hxp
          exact (h.mem_diff_iff.1 hxp).2 hx
        simpa [he] using hselnd.append hrest hdisj

/-! ### Claim theorems -/

/-- C1 (counterexample): contrary to the claim, with an empty pool and the
single requirement for room "X" (`single_staff = false`,
`girls_only = false`), `allocate_staff` does not return the short-staffed
assignment `[{room_no: "X", staff: []}]`: the `if selected_staff:` guard
drops rooms whose selection is empty, so the output is `[]`. -/
theorem allocate_empty_pool_counterexample :
    allocate_staff id [] [⟨"X", false, false⟩] ExclusionRead.missing ≠
      Except.ok [⟨"X", []⟩] := by
  have hval : allocate_staff id [] [⟨"X", false, false⟩]
      ExclusionRead.missing = Except.ok [] := rfl
  rw [hval]
  intro h
  injection h with h2
  simp at h2

/-- C1 (amended): the engine emits an Assignment for a room only when at
least one staff member was selected for it; every emitted assignment has a
non-empty staff list, and in particular with pool `[]` and the single
requirement for room "X" the output is `[]` (no error, but also no empty
assignment record). -/
theorem allocate_skips_empty_selections :
    (∀ (pool : List Staff) (reqs : List RoomReq),
      ((allocate_rooms pool reqs).all (fun a => !a.staff.isEmpty)) = true) ∧
    allocate_staff id [] [⟨"X", false, false⟩] ExclusionRead.missing =
      Except.ok [] :=
  ⟨fun pool reqs => allocate_rooms_staff_nonempty reqs pool, rfl⟩

/-- C2: a `girls_only` room, processed against the pool left over from the
preceding requirements, receives only staff with FEMALE gender, exactly
`min required_count k` of them where `k` is the number of FEMALE staff in
the current pool (short by exactly the deficit when `k < required_count`),
and its assignment sits between the output for the preceding and the
following requirements. -/
theorem girls_only_rooms_get_female_staff (pool : List Staff)
    (pre post : List RoomReq) (r : RoomReq) (h : r.girls_only = true) :
    (∀ s ∈ (allocRoom (poolAfter pool pre) r).1, isFemale s = true) ∧
    (allocRoom (poolAfter pool pre) r).1.length =
      min (staff_needed r) (((poolAfter pool pre).filter isFemale).length) ∧
    allocate_rooms pool (pre ++ r :: post) =
      allocate_rooms pool pre ++
        ((if (allocRoom (poolAfter pool pre) r).1.isEmpty then
            ([] : List Assignment)
          else [⟨r.room_no, (allocRoom (poolAfter pool pre) r).1⟩]) ++
          allocate_rooms (allocRoom (poolAfter pool pre) r).2 post) := by
  have heli : eligibleOf (poolAfter pool pre) r =
      (poolAfter pool pre).filter isFemale := by
    simp [eligibleOf, h]
  refine ⟨?_, ?_, ?_⟩
  · intro s hs
    rw [allocRoom_eq] at hs
    simp only [heli] at hs
    have hs' : s ∈ (poolAfter pool pre).filter isFemale :=
      List.take_subset _ _ hs
    exact (List.mem_filter.1 hs').2
  · rw [allocRoom_eq]
    simp [heli, List.length_take]
  · rw [allocate_rooms_append pre (r :: post) pool, allocate_rooms_cons]

/-- C2 witness: with pool `[A(F), B(M)]` and the girls-only single-staff
room "101" processed first, the selected staff are all female and number
`min 1 1 = 1`. -/
theorem girls_only_rooms_get_female_staff_witness :
    (∀ s ∈ (allocRoom (poolAfter [staffA, staffB] []) ⟨"101", true, true⟩).1,
      isFemale s = true) ∧
    (allocRoom (poolAfter [staffA, staffB] []) ⟨"101", true, true⟩).1.length =
      min (staff_needed ⟨"101", true, true⟩)
        (((poolAfter [staffA, staffB] []).filter isFemale).length) :=
  ⟨(girls_only_rooms_get_female_staff [staffA, staffB] [] [] _ rfl).1,
    (girls_only_rooms_get_female_staff [staffA, staffB] [] [] _ rfl).2.1⟩

/-- C3: for a pool of pairwise-distinct staff records, no staff member
appears twice in the concatenation of all `Assignment.staff` lists of one
allocation run (each pool member is assigned to at most one room). -/
theorem no_staff_member_in_two_rooms (pool : List Staff)
    (reqs : List RoomReq) (h : pool.Nodup) :
    ((allocate_rooms pool reqs).flatMap (fun a => a.staff)).Nodup :=
  allocate_rooms_nodup reqs pool h

/-- C3 witness: on the distinct pool `[A, B, C]` with a girls-only room
and a two-staff room, the flattened output has no duplicates. -/
theorem no_staff_member_in_two_rooms_witness :
    ([staffA, staffB, staffC] : List Staff).Nodup ∧
    ((allocate_rooms [staffA, staffB, staffC]
        [⟨"101", true, true⟩, ⟨"102", false, false⟩]).flatMap
      (fun a => a.staff)).Nodup :=
  ⟨by decide, no_staff_member_in_two_rooms _ _ (by decide)⟩

/-- C4: the engine is greedy in input order: processing requirement `r`
first selects exactly the first `staff_needed r` members of the eligible
subset of the current pool (pool order preserved; `staff_needed` is 1 for
single-staff rooms and 2 otherwise), removes exactly those members from
the shared pool, and the remaining requirements are processed against the
reduced pool. -/
theorem allocate_greedy_front_of_eligible (pool : List Staff) (r : RoomReq)
    (rs : List RoomReq) :
    allocRoom pool r =
      ((eligibleOf pool r).take (staff_needed r),
        pool.diff ((eligibleOf pool r).take (staff_needed r))) ∧
    staff_needed r = (if r.single_staff then 1 else 2) ∧
    allocate_rooms pool (r :: rs) =
      (if ((eligibleOf pool r).take (staff_needed r)).isEmpty then
          ([] : List Assignment)
        else [⟨r.room_no, (eligibleOf pool r).take (staff_needed r)⟩]) ++
        allocate_rooms
          (pool.diff ((eligibleOf pool r).take (staff_needed r))) rs := by
  refine ⟨allocRoom_eq pool r, rfl, ?_⟩
  rw [allocate_rooms_cons]
  simp [allocRoom_eq]

/-- C5: when the exclusion store is read successfully, the pool the engine
allocates from is the input staff list minus the members whose stripped
name is in the exclusion set, so (for any permutation used as the shuffle)
no staff member whose stripped name is excluded appears in any assignment;
and on `[A, B]` with exclusion set `{"A"}` the filtered pool is `[B]`. -/
theorem excluded_staff_never_assigned :
    (∀ (π : List Staff → List Staff), (∀ l, List.Perm (π l) l) →
      ∀ (staff_list : List Staff) (names : List String)
        (reqs : List RoomReq) (out : List Assignment),
        allocate_staff π staff_list reqs (ExclusionRead.loaded names) =
          Except.ok out →
        ∀ a ∈ out, ∀ s ∈ a.staff,
          names.contains (pyStrip s.staff_name) = false) ∧
    filterExcluded [staffA, staffB] ["A"] = [staffB] := by
  constructor
  · intro π hπ staff_list names reqs out heq a ha s hs
    have hout : allocate_rooms (π (filterExcluded staff_list names)) reqs
        = out := by
      simpa [allocate_staff] using heq
    subst hout
    have hmem := mem_allocate_rooms_pool reqs _ a ha s hs
    have hmem2 : s ∈ filterExcluded staff_list names :=
      ((hπ (filterExcluded staff_list names)).mem_iff).1 hmem
    have hflt := List.mem_filter.1 hmem2
    simpa using hflt.2
  · decide

/-- C5 witness: running the engine with the identity permutation on pool
`[A, B]`, exclusion set `{"A"}` and one single-staff room yields the
output `[{room "R", [B]}]`, whose only member's stripped name is not in
the exclusion set. -/
theorem excluded_staff_never_assigned_witness :
    (["A"] : List String).contains (pyStrip staffB.staff_name) = false :=
  excluded_staff_never_assigned.1 id (fun l => List.Perm.refl l)
    [staffA, staffB] ["A"] [⟨"R", false, true⟩] [⟨"R", [staffB]⟩] rfl
    ⟨"R", [staffB]⟩ (by decide) staffB (by decide)

/-- C6 (counterexample): contrary to the claim, a failed read of the
exclusion store does not degrade to a safe default: at the concrete input
below `allocate_staff` propagates the failure (the `except` handler logs
and re-raises) instead of returning an allotment. -/
theorem exclusion_read_failure_counterexample :
    allocate_staff id [staffA] [⟨"R", false, true⟩] ExclusionRead.failed =
      Except.error () := rfl

/-- C6 (amended): only an absent exclusion store degrades to the safe
default — allocation then behaves exactly as with an empty exclusion set
and returns an allotment; a read failure of an existing store is
propagated to the caller as an error. -/
theorem exclusion_missing_defaults_to_empty (π : List Staff → List Staff)
    (staff_list : List Staff) (reqs : List RoomReq) :
    allocate_staff π staff_list reqs ExclusionRead.missing =
      allocate_staff π staff_list reqs (ExclusionRead.loaded []) ∧
    allocate_staff π staff_list reqs ExclusionRead.failed =
      Except.error () := by
  constructor
  · simp [allocate_staff, filterExcluded]
  · rfl

/-- C7: the aggregator returns `(total_required, female_required,
male_possible)` where the total is the sum of per-room needs (1 if
single-staff else 2), the female total is the same sum over girls-only
rooms, and `male_possible = total_required - female_required`, so
`male_possible + female_required = total_required`. -/
theorem staff_requirements_aggregates (rooms : List RoomReq) :
    (calculate_staff_requirements rooms).1 = (rooms.map staff_needed).sum ∧
    (calculate_staff_requirements rooms).2.1 =
      ((rooms.filter (fun r => r.girls_only)).map staff_needed).sum ∧
    (calculate_staff_requirements rooms).2.2 =
      (calculate_staff_requirements rooms).1 -
        (calculate_staff_requirements rooms).2.1 ∧
    (calculate_staff_requirements rooms).2.2 +
        (calculate_staff_requirements rooms).2.1 =
      (calculate_staff_requirements rooms).1 := by
  have h := calcLoop_eq rooms 0 0
  have hle := female_le_total rooms
  have ht : (calculate_staff_requirements rooms).1
      = (rooms.map staff_needed).sum := by
    simp [calculate_staff_requirements, h]
  have hf : (calculate_staff_requirements rooms).2.1
      = ((rooms.filter (fun r => r.girls_only)).map staff_needed).sum := by
    simp [calculate_staff_requirements, h]
  have hm : (calculate_staff_requirements rooms).2.2
      = (rooms.map staff_needed).sum
        - ((rooms.filter (fun r => r.girls_only)).map staff_needed).sum := by
    simp [calculate_staff_requirements, h]
  refine ⟨ht, hf, ?_, ?_⟩
  · rw [ht, hf, hm]
  · rw [ht, hf, hm]
    omega

/-- C8: setting a date's configuration with a successful durable write
returns `true` and a subsequent get for that date returns a value
structurally equal to the stored configuration. -/
theorem set_then_get_roundtrip (m : ConfigurationManager) (fs : ClassesFile)
    (date : String) (config : DateConfig) :
    (set_date_config m fs true date config).2.2 = true ∧
    get_date_config (set_date_config m fs true date config).1 date =
      config := by
  constructor
  · rfl
  · simp [set_date_config, get_date_config, dictInsert, List.lookup,
      save_configurations]

/-- C9: when the durable write fails, `set_date_config` reports `false`
instead of throwing; the new configuration is committed to memory (a get
for that date returns it), the backing file is left unchanged, and every
other date's in-memory configuration is preserved. -/
theorem set_write_failure_reports_false (m : ConfigurationManager)
    (fs : ClassesFile) (date : String) (config : DateConfig) :
    (set_date_config m fs false date config).2.2 = false ∧
    get_date_config (set_date_config m fs false date config).1 date =
      config ∧
    (set_date_config m fs false date config).2.1 = fs ∧
    (∀ d, d ≠ date →
      get_date_config (set_date_config m fs false date config).1 d =
        get_date_config m d) := by
  refine ⟨rfl, ?_, rfl, ?_⟩
  · simp [set_date_config, get_date_config, dictInsert, List.lookup,
      save_configurations]
  · intro d hd
    simp [set_date_config, get_date_config, dictInsert, List.lookup,
      save_configurations, beq_false_of_ne hd, lookup_filter_ne d date hd]

/-- C9 witness: storing a config for 2024-03-01 with a failing write
leaves the (unset) date 2024-03-02 at its default. -/
theorem set_write_failure_reports_false_witness :
    ("2024-03-02" : String) ≠ "2024-03-01" ∧
    get_date_config
        (set_date_config ⟨[]⟩ ⟨[]⟩ false "2024-03-01" default_config).1
        "2024-03-02" =
      get_date_config ⟨[]⟩ "2024-03-02" :=
  ⟨by decide,
    (set_write_failure_reports_false ⟨[]⟩ ⟨[]⟩ "2024-03-01"
      default_config).2.2.2 "2024-03-02" (by decide)⟩

/-- C10: `clear_configurations` unconditionally empties the in-memory map
(every subsequent get returns the fresh default) and returns no
success/failure indication — its result carries no boolean — so when the
persist fails the backing file silently keeps the old entries, while a
successful persist empties it. -/
theorem clear_resets_memory_silently (m : ConfigurationManager)
    (fs : ClassesFile) (writeOk : Bool) :
    (∀ d, get_date_config (clear_configurations m fs writeOk).1 d =
      default_config) ∧
    (clear_configurations m fs false).2 = fs ∧
    (clear_configurations m fs true).2 = ⟨[]⟩ :=
  ⟨fun _ => rfl, rfl, rfl⟩

end StaffAllotment
